import Mathlib

/-!
# Verification of the Topology Graph Composer

Shallow embedding of the topology-to-graph composition functions of the
`mockwatchtower` frontend (`getExpandedDevicePositions`, `topologyToNodes`,
`topologyToEdges` in the `TopologyCanvas` module), together with theorems
settling the specification's claims about them.

Modelling conventions:
* TypeScript optional string fields become `Option String`; JavaScript
  truthiness tests on such fields (`if (x)`) are modelled by `otruthy`,
  which is `false` for `none` and for the empty string.
* The `devices` keyed collection (a JS object) becomes an association list
  `List (String × Device)`; indexing becomes `lookupDevice` (first match).
* The JS `Set` of expanded cluster ids becomes a `List String` used only
  through membership.
* Numeric coordinates and utilizations become `Int`.  All divisions the
  code performs (`(n-1)*160/2`) are exact, so integer division is faithful.
* The JS `Map` used for external endpoints preserves insertion order; it is
  modelled by an accumulator list with a not-already-present guard.
* JS `Array.sort()` on two strings is lexicographic; it is modelled with
  `String`'s linear order.
-/

namespace Mockwatchtower

/-- A canvas position (`{x, y}`). -/
structure Pt where
  x : Int
  y : Int
  deriving DecidableEq, Repr

/-- A connection/link endpoint: `{device?, port?, label?}`. -/
structure Endpoint where
  device : Option String
  port : Option String
  label : Option String
  deriving DecidableEq, Repr

/-- The always-label-based target of an external link (`{label, type, icon}`). -/
structure ExtTarget where
  label : String
  type : String
  icon : String
  deriving DecidableEq, Repr

/-- A cluster (fields the composer reads). -/
structure Cluster where
  id : String
  name : String
  position : Pt
  device_ids : List String
  deriving DecidableEq, Repr

/-- A device (fields the composer reads: `id` and `cluster_id`). -/
structure Device where
  id : String
  cluster_id : String
  deriving DecidableEq, Repr

/-- A device-to-device connection (fields the composer reads). -/
structure Connection where
  id : String
  source : Endpoint
  target : Endpoint
  utilization : Option Int
  status : Option String
  deriving DecidableEq, Repr

/-- An external link (fields the composer reads). -/
structure ExternalLink where
  id : String
  source : Endpoint
  target : ExtTarget
  utilization : Option Int
  status : Option String
  deriving DecidableEq, Repr

/-- A topology snapshot: `{clusters, devices, connections, external_links}`. -/
structure Topology where
  clusters : List Cluster
  devices : List (String × Device)
  connections : List Connection
  external_links : List ExternalLink
  deriving DecidableEq, Repr

/-- JavaScript truthiness of an optional string: `none` and `""` are falsy. -/
def otruthy : Option String → Bool
  | none => false
  | some s => s ≠ ""

/-- Indexing the keyed `devices` collection: `topology.devices[id]`. -/
def lookupDevice (devices : List (String × Device)) (k : String) : Option Device :=
  (devices.find? (fun p => p.1 == k)).map (·.2)

/-- `getExpandedDevicePositions`: horizontal layout for the devices of an
expanded cluster, spacing 160, centred on the cluster position. -/
def getExpandedDevicePositions (cluster : Cluster) (deviceCount : Nat) : List Pt :=
  let spacing : Int := 160
  let startX : Int := cluster.position.x - ((deviceCount : Int) - 1) * spacing / 2
  (List.range deviceCount).map (fun (i : Nat) => { x := startX + (i : Int) * spacing, y := cluster.position.y })

/-- `cluster.device_ids.map(id => topology.devices[id]).filter(Boolean)`. -/
def resolvedDevices (devices : List (String × Device)) (c : Cluster) : List Device :=
  c.device_ids.filterMap (lookupDevice devices)

/-- The payload (`data`) carried by a derived node. -/
inductive NodeData where
  /-- Collapsed cluster node data: `{cluster, devices}`. -/
  | cluster (c : Cluster) (devices : List Device)
  /-- Device node data: `{device, clusterId, clusterColor}`. -/
  | device (d : Device) (clusterId : String) (clusterColor : String)
  /-- External node data: `{label, type, icon}`. -/
  | external (label : String) (type : String) (icon : String)
  deriving DecidableEq, Repr

/-- A derived node: `{id, type, position, data}`. -/
structure Node where
  id : String
  type : String
  position : Pt
  data : NodeData
  deriving DecidableEq, Repr

/-- The nodes emitted for one cluster by `topologyToNodes`: one device node
per resolved device when expanded, one cluster node otherwise. -/
def clusterNodes (devices : List (String × Device)) (expanded : List String)
    (cluster : Cluster) : List Node :=
  let clusterDevices := resolvedDevices devices cluster
  if expanded.contains cluster.id then
    let positions := getExpandedDevicePositions cluster clusterDevices.length
    (clusterDevices.zip positions).map (fun p =>
      { id := p.1.id, type := "device", position := p.2,
        data := .device p.1 cluster.id "#39d5ff" })
  else
    [{ id := cluster.id, type := "cluster",
       position := { x := cluster.position.x, y := cluster.position.y },
       data := .cluster cluster clusterDevices }]

/-- An entry of the `externalEndpoints` map: `{label, type, icon, x, y}`. -/
structure ExtEntry where
  label : String
  type : String
  icon : String
  x : Int
  y : Int
  deriving DecidableEq, Repr

/-- The map entry registered for a link's target label:
`{label, type, icon, x: 50, y: 100 + index*120}`. -/
def targetEntry (link : ExternalLink) (index : Nat) : ExtEntry :=
  { label := link.target.label, type := link.target.type,
    icon := link.target.icon, x := 50, y := 100 + (index : Int) * 120 }

/-- The map entry registered for a link's source label:
`{label, type: 'campus', icon: 'building', x: 50, y: 100 + (index+1)*120}`. -/
def sourceEntry (link : ExternalLink) (index : Nat) : ExtEntry :=
  { label := link.source.label.getD "", type := "campus",
    icon := "building", x := 50, y := 100 + ((index : Int) + 1) * 120 }

/-- The `external_links.forEach` loop building the `externalEndpoints` map,
with the running link index and the accumulated (insertion-ordered) map. -/
def synthExternalAux : List ExternalLink → Nat → List ExtEntry → List ExtEntry
  | [], _, acc => acc
  | link :: rest, index, acc =>
    let acc1 :=
      if acc.any (fun e => e.label == link.target.label) then acc
      else acc ++ [targetEntry link index]
    let acc2 :=
      if otruthy link.source.label &&
          !(acc1.any (fun e => e.label == link.source.label.getD "")) then
        acc1 ++ [sourceEntry link index]
      else acc1
    synthExternalAux rest (index + 1) acc2

/-- The `externalEndpoints` map, in insertion order. -/
def synthExternal (links : List ExternalLink) : List ExtEntry :=
  synthExternalAux links 0 []

/-- The external nodes pushed after the cluster/device nodes. -/
def externalNodes (links : List ExternalLink) : List Node :=
  (synthExternal links).map (fun e =>
    { id := "external-" ++ e.label, type := "external",
      position := { x := e.x, y := e.y },
      data := .external e.label e.type e.icon })

/-- `topologyToNodes`: cluster/device nodes in declared cluster order, then
the synthesized external nodes. -/
def topologyToNodes (topology : Topology) (expandedClusters : List String) : List Node :=
  (topology.clusters.flatMap (clusterNodes topology.devices expandedClusters))
    ++ externalNodes topology.external_links

/-- A derived edge payload: `{utilization, status}`. -/
structure EdgeData where
  utilization : Int
  status : String
  deriving DecidableEq, Repr

/-- A derived edge: `{id, source, target, data}` (the constant
`type: 'traffic'` field is omitted). -/
structure Edge where
  id : String
  source : String
  target : String
  data : EdgeData
  deriving DecidableEq, Repr

/-- The `actualSource`/`actualTarget` computation for one connection:
`none` when the connection fails device/cluster resolution, otherwise the
rendered endpoint pair chosen by the expansion state. -/
def connRendered (devices : List (String × Device)) (expandedClusters : List String)
    (conn : Connection) : Option (String × String) :=
  if otruthy conn.source.device && otruthy conn.target.device then
    let sourceDevice := conn.source.device.getD ""
    let targetDevice := conn.target.device.getD ""
    let sourceCluster := (lookupDevice devices sourceDevice).map (·.cluster_id)
    let targetCluster := (lookupDevice devices targetDevice).map (·.cluster_id)
    if !otruthy sourceCluster || !otruthy targetCluster then none
    else
      let sc := sourceCluster.getD ""
      let tc := targetCluster.getD ""
      let sourceExpanded := expandedClusters.contains sc
      let targetExpanded := expandedClusters.contains tc
      if sourceExpanded && targetExpanded then some (sourceDevice, targetDevice)
      else if sourceExpanded then some (sourceDevice, tc)
      else if targetExpanded then some (sc, targetDevice)
      else some (sc, tc)
  else none

/-- Lexicographic comparison of character lists (by code point), modelling
the default JavaScript string comparison used by `Array.sort()`. -/
def charListLe : List Char → List Char → Bool
  | [], _ => true
  | _ :: _, [] => false
  | a :: as, b :: bs =>
    if a.toNat < b.toNat then true
    else if b.toNat < a.toNat then false
    else charListLe as bs

/-- Lexicographic string comparison (JavaScript `a <= b` on strings). -/
def strLe (a b : String) : Bool := charListLe a.data b.data

/-- The dedup key: `[actualSource, actualTarget].sort().join('--')`. -/
def edgeKey (a b : String) : String :=
  if strLe a b then a ++ "--" ++ b else b ++ "--" ++ a

/-- The connection loop of `topologyToEdges`, threading the `addedEdges` set. -/
def processConns (devices : List (String × Device)) (expandedClusters : List String) :
    List Connection → List String → List Edge
  | [], _ => []
  | conn :: rest, seen =>
    match connRendered devices expandedClusters conn with
    | none => processConns devices expandedClusters rest seen
    | some (s, t) =>
      if s = t then processConns devices expandedClusters rest seen
      else
        let k := edgeKey s t
        if seen.contains k then processConns devices expandedClusters rest seen
        else
          { id := "edge-" ++ k, source := s, target := t,
            data := { utilization := conn.utilization.getD 0,
                      status := conn.status.getD "up" } }
            :: processConns devices expandedClusters rest (k :: seen)

/-- The rendered source of an external-link edge: the device or its cluster
when the source endpoint carries a resolvable device, else the synthesized
external node for the source label, else `none` (no edge). -/
def linkSourceId (devices : List (String × Device)) (expandedClusters : List String)
    (link : ExternalLink) : Option String :=
  let sourceDeviceId := link.source.device
  let sourceCluster :=
    if otruthy sourceDeviceId then
      (lookupDevice devices (sourceDeviceId.getD "")).map (·.cluster_id)
    else none
  if otruthy sourceDeviceId && otruthy sourceCluster then
    some (if expandedClusters.contains (sourceCluster.getD "") then sourceDeviceId.getD ""
          else sourceCluster.getD "")
  else if otruthy link.source.label then some ("external-" ++ link.source.label.getD "")
  else none

/-- The external-link loop of `topologyToEdges`. -/
def linkEdges (devices : List (String × Device)) (expandedClusters : List String)
    (links : List ExternalLink) : List Edge :=
  links.filterMap (fun link =>
    (linkSourceId devices expandedClusters link).map (fun sourceId =>
      { id := "edge-" ++ link.id, source := sourceId,
        target := "external-" ++ link.target.label,
        data := { utilization := link.utilization.getD 0,
                  status := link.status.getD "up" } }))

/-- `topologyToEdges`: connection-derived edges, then external-link edges. -/
def topologyToEdges (topology : Topology) (expandedClusters : List String) : List Edge :=
  processConns topology.devices expandedClusters topology.connections []
    ++ linkEdges topology.devices expandedClusters topology.external_links

/-! ## Specification-side definitions (for refinement claims) -/

/-- The spec's endpoint-resolution table, by the two expansion bits:
both expanded → device/device; source only → device/target-cluster;
target only → source-cluster/device; neither → cluster/cluster. -/
def specResolutionTable (sourceExpanded targetExpanded : Bool)
    (sourceDevice targetDevice sourceClusterId targetClusterId : String) :
    String × String :=
  match sourceExpanded, targetExpanded with
  | true, true => (sourceDevice, targetDevice)
  | true, false => (sourceDevice, targetClusterId)
  | false, true => (sourceClusterId, targetDevice)
  | false, false => (sourceClusterId, targetClusterId)

/-! ## Order lemmas for the dedup key -/

theorem charListLe_total (l₁ l₂ : List Char) :
    charListLe l₁ l₂ = true ∨ charListLe l₂ l₁ = true := by
  induction l₁ generalizing l₂ with
  | nil => left; rfl
  | cons a as ih =>
    cases l₂ with
    | nil => right; rfl
    | cons b bs =>
      rcases Nat.lt_trichotomy a.toNat b.toNat with h | h | h
      · left; simp [charListLe, h]
      · rcases ih bs with h2 | h2
        · left; simp [charListLe, h, h2]
        · right; simp [charListLe, h.symm, h2]
      · right; simp [charListLe, h]

theorem charListLe_antisymm (l₁ l₂ : List Char) (h₁ : charListLe l₁ l₂ = true)
    (h₂ : charListLe l₂ l₁ = true) : l₁ = l₂ := by
  induction l₁ generalizing l₂ with
  | nil =>
    cases l₂ with
    | nil => rfl
    | cons b bs => simp [charListLe] at h₂
  | cons a as ih =>
    cases l₂ with
    | nil => simp [charListLe] at h₁
    | cons b bs =>
      rcases Nat.lt_trichotomy a.toNat b.toNat with h | h | h
      · simp [charListLe, h, Nat.lt_asymm h] at h₂
      · have hab : a = b := by
          apply Char.ext; apply UInt32.ext; simpa [Char.toNat] using h
        subst hab
        simp only [charListLe, lt_irrefl, if_false] at h₁ h₂
        rw [ih bs h₁ h₂]
      · simp [charListLe, h, Nat.lt_asymm h] at h₁

theorem strLe_total (a b : String) : strLe a b = true ∨ strLe b a = true :=
  charListLe_total a.data b.data

theorem strLe_antisymm (a b : String) (h₁ : strLe a b = true) (h₂ : strLe b a = true) :
    a = b :=
  String.ext (charListLe_antisymm a.data b.data h₁ h₂)

theorem edgeKey_comm (a b : String) : edgeKey a b = edgeKey b a := by
  unfold edgeKey
  rcases h₁ : strLe a b with _ | _ <;> rcases h₂ : strLe b a with _ | _
  · rcases strLe_total a b with h | h
    · rw [h] at h₁; cases h₁
    · rw [h] at h₂; cases h₂
  · simp
  · simp
  · rw [strLe_antisymm a b h₁ h₂]

/-! ## Claim C1: the connection endpoint-resolution table -/

/-- **C1.** For every connection whose source and target endpoints both carry a
device id that resolves to a device with a known owning cluster (a non-empty
`cluster_id`), the rendered edge endpoints follow the expansion table: both
clusters expanded → device id to device id; only source expanded → source
device id to target cluster id; only target expanded → source cluster id to
target device id; neither → source cluster id to target cluster id. -/
theorem c1_connection_resolution_table
    (topo : Topology) (expanded : List String) (conn : Connection)
    (sd td : String) (ds dt : Device)
    (hsd : conn.source.device = some sd) (hsd' : sd ≠ "")
    (htd : conn.target.device = some td) (htd' : td ≠ "")
    (hds : lookupDevice topo.devices sd = some ds) (hsc : ds.cluster_id ≠ "")
    (hdt : lookupDevice topo.devices td = some dt) (htc : dt.cluster_id ≠ "") :
    connRendered topo.devices expanded conn =
      some (specResolutionTable (expanded.contains ds.cluster_id)
        (expanded.contains dt.cluster_id) sd td ds.cluster_id dt.cluster_id) := by
  unfold connRendered
  rw [hsd, htd]
  rw [if_pos (by simp [otruthy, hsd', htd'])]
  simp only [Option.getD_some]
  rw [hds, hdt]
  simp only [Option.map_some']
  rw [if_neg (by simp [otruthy, hsc, htc])]
  simp only [otruthy, Option.getD_some]
  unfold specResolutionTable
  rcases expanded.contains ds.cluster_id with _ | _ <;>
    rcases expanded.contains dt.cluster_id with _ | _ <;> simp

/-! ## Concrete fixtures for witnesses and counterexamples -/

/-- An endpoint with only the `device`/`label` fields populated. -/
def mkEp (d : Option String) (l : Option String) : Endpoint :=
  { device := d, port := none, label := l }

/-- A cluster fixture. -/
def mkCl (i : String) (x y : Int) (ds : List String) : Cluster :=
  { id := i, name := i, position := { x := x, y := y }, device_ids := ds }

/-- A device fixture. -/
def mkDev (i c : String) : Device := { id := i, cluster_id := c }

/-- A connection fixture. -/
def mkConn (i : String) (s t : Endpoint) (u : Option Int) (st : Option String) :
    Connection :=
  { id := i, source := s, target := t, utilization := u, status := st }

/-- An external link fixture. -/
def mkLink (i : String) (s : Endpoint) (tl tt ti : String) (u : Option Int)
    (st : Option String) : ExternalLink :=
  { id := i, source := s, target := { label := tl, type := tt, icon := ti },
    utilization := u, status := st }

/-- The spec's Scenario A topology: clusters `A{d1,d2}`, `B{d3}`, one
connection `d1 ↔ d3`. -/
def exTopoA : Topology :=
  { clusters := [mkCl "A" 0 0 ["d1", "d2"], mkCl "B" 400 0 ["d3"]],
    devices := [("d1", mkDev "d1" "A"), ("d2", mkDev "d2" "A"), ("d3", mkDev "d3" "B")],
    connections := [mkConn "cx" (mkEp (some "d1") none) (mkEp (some "d3") none) none none],
    external_links := [] }

theorem c1_connection_resolution_table_witness :
    connRendered exTopoA.devices ["A"]
        (mkConn "cx" (mkEp (some "d1") none) (mkEp (some "d3") none) none none) =
      some (specResolutionTable ((["A"] : List String).contains "A")
        ((["A"] : List String).contains "B") "d1" "d3" "A" "B") :=
  c1_connection_resolution_table exTopoA ["A"]
    (mkConn "cx" (mkEp (some "d1") none) (mkEp (some "d3") none) none none)
    "d1" "d3" (mkDev "d1" "A") (mkDev "d3" "B")
    rfl (by decide) rfl (by decide) (by decide) (by decide) (by decide) (by decide)

/-! ## Claim C6: positions of expanded device nodes -/

theorem mem_zip_of_getElem {α β : Type} (l₁ : List α) (l₂ : List β) (i : Nat)
    (h₁ : i < l₁.length) (h₂ : i < l₂.length) : (l₁[i], l₂[i]) ∈ l₁.zip l₂ := by
  have hlen : i < (l₁.zip l₂).length := by simp [List.length_zip]; omega
  have := List.getElem_mem hlen
  rwa [List.getElem_zip] at this

/-- **C6.** For every expanded cluster with `N ≥ 1` resolvable devices, the
`i`-th resolved device (0-indexed, declared order, unresolved ids dropped) is
emitted as a device node at `x = cluster.x - (N-1)*160/2 + i*160`,
`y = cluster.y`. -/
theorem c6_expanded_device_positions
    (topo : Topology) (expanded : List String) (c : Cluster)
    (hc : c ∈ topo.clusters) (hexp : expanded.contains c.id = true)
    (i : Nat) (hi : i < (resolvedDevices topo.devices c).length) :
    ({ id := ((resolvedDevices topo.devices c)[i]).id,
       type := "device",
       position := { x := c.position.x -
                       (((resolvedDevices topo.devices c).length : Int) - 1) * 160 / 2 +
                       (i : Int) * 160,
                     y := c.position.y },
       data := .device ((resolvedDevices topo.devices c)[i]) c.id "#39d5ff" } : Node)
      ∈ topologyToNodes topo expanded := by
  unfold topologyToNodes
  apply List.mem_append_left
  apply List.mem_flatMap.mpr
  refine ⟨c, hc, ?_⟩
  unfold clusterNodes
  rw [if_pos hexp]
  apply List.mem_map.mpr
  have hlenpos : (getExpandedDevicePositions c (resolvedDevices topo.devices c).length).length
      = (resolvedDevices topo.devices c).length := by
    unfold getExpandedDevicePositions
    rw [List.length_map, List.length_range]
  have hlt : i < (getExpandedDevicePositions c (resolvedDevices topo.devices c).length).length := by
    omega
  refine ⟨((resolvedDevices topo.devices c)[i],
           (getExpandedDevicePositions c (resolvedDevices topo.devices c).length)[i]), ?_, ?_⟩
  · exact mem_zip_of_getElem _ _ i hi hlt
  · have hpos : (getExpandedDevicePositions c (resolvedDevices topo.devices c).length)[i]
        = { x := c.position.x - (((resolvedDevices topo.devices c).length : Int) - 1) * 160 / 2 +
                 (i : Int) * 160,
            y := c.position.y } := by
      unfold getExpandedDevicePositions
      rw [List.getElem_map, List.getElem_range]
    rw [hpos]

/-! ## Rewriting equations for the connection loop -/

theorem processConns_nil (devices : List (String × Device)) (expanded : List String)
    (seen : List String) : processConns devices expanded [] seen = [] := rfl

theorem processConns_cons_none (devices : List (String × Device)) (expanded : List String)
    (conn : Connection) (rest : List Connection) (seen : List String)
    (h : connRendered devices expanded conn = none) :
    processConns devices expanded (conn :: rest) seen =
      processConns devices expanded rest seen := by
  simp only [processConns]
  rw [h]

theorem processConns_cons_self (devices : List (String × Device)) (expanded : List String)
    (conn : Connection) (rest : List Connection) (seen : List String) (s t : String)
    (h : connRendered devices expanded conn = some (s, t)) (hst : s = t) :
    processConns devices expanded (conn :: rest) seen =
      processConns devices expanded rest seen := by
  simp only [processConns]
  rw [h]
  simp [hst]

theorem processConns_cons_seen (devices : List (String × Device)) (expanded : List String)
    (conn : Connection) (rest : List Connection) (seen : List String) (s t : String)
    (h : connRendered devices expanded conn = some (s, t)) (hst : s ≠ t)
    (hseen : seen.contains (edgeKey s t) = true) :
    processConns devices expanded (conn :: rest) seen =
      processConns devices expanded rest seen := by
  have hmem : edgeKey s t ∈ seen := by simpa using hseen
  simp only [processConns]
  rw [h]
  simp [hst, hmem]

theorem processConns_cons_new (devices : List (String × Device)) (expanded : List String)
    (conn : Connection) (rest : List Connection) (seen : List String) (s t : String)
    (h : connRendered devices expanded conn = some (s, t)) (hst : s ≠ t)
    (hseen : seen.contains (edgeKey s t) = false) :
    processConns devices expanded (conn :: rest) seen =
      { id := "edge-" ++ edgeKey s t, source := s, target := t,
        data := { utilization := conn.utilization.getD 0,
                  status := conn.status.getD "up" } }
        :: processConns devices expanded rest (edgeKey s t :: seen) := by
  have hmem : edgeKey s t ∉ seen := by simpa using hseen
  simp only [processConns]
  rw [h]
  simp [hst, hmem]

/-- Every edge produced by the connection loop passes the self-loop check. -/
theorem mem_processConns_source_ne_target (devices : List (String × Device))
    (expanded : List String) :
    ∀ (conns : List Connection) (seen : List String) (e : Edge),
      e ∈ processConns devices expanded conns seen → e.source ≠ e.target := by
  intro conns
  induction conns with
  | nil => intro seen e he; rw [processConns_nil] at he; cases he
  | cons conn rest ih =>
    intro seen e he
    cases hr : connRendered devices expanded conn with
    | none =>
      rw [processConns_cons_none _ _ _ _ _ hr] at he
      exact ih seen e he
    | some st =>
      obtain ⟨s, t⟩ := st
      by_cases hst : s = t
      · rw [processConns_cons_self _ _ _ _ _ _ _ hr hst] at he
        exact ih seen e he
      · cases hseen : seen.contains (edgeKey s t) with
        | true =>
          rw [processConns_cons_seen _ _ _ _ _ _ _ hr hst hseen] at he
          exact ih seen e he
        | false =>
          rw [processConns_cons_new _ _ _ _ _ _ _ hr hst hseen] at he
          cases he with
          | head => exact hst
          | tail _ he' => exact ih _ e he'

/-- Every edge produced by the connection loop carries the payload of a
connection of the list, with the `?? 0` / `?? 'up'` defaults applied, and its
source/target are that connection's rendered endpoints. -/
theorem mem_processConns_payload (devices : List (String × Device))
    (expanded : List String) :
    ∀ (conns : List Connection) (seen : List String) (e : Edge),
      e ∈ processConns devices expanded conns seen →
      ∃ conn ∈ conns,
        connRendered devices expanded conn = some (e.source, e.target) ∧
        e.data = { utilization := conn.utilization.getD 0,
                   status := conn.status.getD "up" } := by
  intro conns
  induction conns with
  | nil => intro seen e he; rw [processConns_nil] at he; cases he
  | cons conn rest ih =>
    intro seen e he
    cases hr : connRendered devices expanded conn with
    | none =>
      rw [processConns_cons_none _ _ _ _ _ hr] at he
      obtain ⟨c, hc, h1, h2⟩ := ih seen e he
      exact ⟨c, List.mem_cons_of_mem _ hc, h1, h2⟩
    | some st =>
      obtain ⟨s, t⟩ := st
      by_cases hst : s = t
      · rw [processConns_cons_self _ _ _ _ _ _ _ hr hst] at he
        obtain ⟨c, hc, h1, h2⟩ := ih seen e he
        exact ⟨c, List.mem_cons_of_mem _ hc, h1, h2⟩
      · cases hseen : seen.contains (edgeKey s t) with
        | true =>
          rw [processConns_cons_seen _ _ _ _ _ _ _ hr hst hseen] at he
          obtain ⟨c, hc, h1, h2⟩ := ih seen e he
          exact ⟨c, List.mem_cons_of_mem _ hc, h1, h2⟩
        | false =>
          rw [processConns_cons_new _ _ _ _ _ _ _ hr hst hseen] at he
          cases he with
          | head => exact ⟨conn, List.mem_cons_self _ _, hr, rfl⟩
          | tail _ he' =>
            obtain ⟨c, hc, h1, h2⟩ := ih _ e he'
            exact ⟨c, List.mem_cons_of_mem _ hc, h1, h2⟩

/-! ## Claim C3: no self-loops -/

/-- An external link whose source and target carry the same label. -/
def exTopoC3 : Topology :=
  { clusters := [], devices := [], connections := [],
    external_links := [mkLink "L" (mkEp none (some "X")) "X" "cloud" "cloud" none none] }

/-- **C3 counterexample.** The composed output can contain a self-loop: an
external link whose label-only source carries the same label as its target
renders as an edge from `external-X` to `external-X` — the self-loop check is
applied only to connection-derived edges, not to external-link edges. -/
theorem c3_self_loop_counterexample :
    ∃ e ∈ topologyToEdges exTopoC3 [], e.source = e.target := by decide

/-- **C3 (amended).** No *connection-derived* edge of the composed output has
its rendered source equal to its rendered target; edges derived from external
links may self-loop (e.g. when the source label equals the target label). -/
theorem c3_no_self_loop_amended (topo : Topology) (expanded : List String) (e : Edge)
    (he : e ∈ processConns topo.devices expanded topo.connections []) :
    e.source ≠ e.target :=
  mem_processConns_source_ne_target topo.devices expanded topo.connections [] e he

theorem c3_no_self_loop_amended_witness :
    ("A" : String) ≠ "B" := by
  have h := c3_no_self_loop_amended exTopoA []
    { id := "edge-A--B", source := "A", target := "B",
      data := { utilization := 0, status := "up" } } (by decide)
  exact h

/-! ## Claim C10: connection-edge payload defaults -/

/-- **C10.** Every connection-derived edge of the composed output takes its
payload from the connection it renders, with a missing `utilization` field
defaulting to `0` and a missing `status` field defaulting to `"up"`. -/
theorem c10_connection_payload_defaults (topo : Topology) (expanded : List String)
    (e : Edge) (he : e ∈ processConns topo.devices expanded topo.connections []) :
    ∃ conn ∈ topo.connections,
      connRendered topo.devices expanded conn = some (e.source, e.target) ∧
      e.data = { utilization := conn.utilization.getD 0,
                 status := conn.status.getD "up" } :=
  mem_processConns_payload topo.devices expanded topo.connections [] e he

theorem c10_connection_payload_defaults_witness :
    ∃ conn ∈ exTopoA.connections,
      connRendered exTopoA.devices [] conn = some ("A", "B") ∧
      ({ utilization := 0, status := "up" } : EdgeData) =
        { utilization := conn.utilization.getD 0,
          status := conn.status.getD "up" } := by
  have h := c10_connection_payload_defaults exTopoA []
    { id := "edge-A--B", source := "A", target := "B",
      data := { utilization := 0, status := "up" } } (by decide)
  exact h

/-! ## Claim C4: one edge per external link, with payload defaults -/

/-- An external link whose source endpoint carries neither a device nor a
label. -/
def exTopoC4 : Topology :=
  { clusters := [], devices := [], connections := [],
    external_links := [mkLink "L" (mkEp none none) "X" "cloud" "cloud" none none] }

/-- **C4 counterexample.** An external link does not always yield an edge: a
link whose source endpoint carries neither a resolvable device nor a label is
dropped (`sourceId` is null), so a topology with one external link composes to
zero edges. -/
theorem c4_external_edge_counterexample :
    exTopoC4.external_links.length = 1 ∧ topologyToEdges exTopoC4 [] = [] := by
  decide

/-- The external-link loop yields, in order, exactly one edge per link whose
source resolves, and nothing for the others — with no assumption on the
list: mixed lists of resolvable and unresolvable links are covered. -/
theorem linkEdges_eq_filter_map (devices : List (String × Device))
    (expanded : List String) :
    ∀ links : List ExternalLink,
      linkEdges devices expanded links =
        (links.filter (fun link => (linkSourceId devices expanded link).isSome)).map
          (fun link =>
            { id := "edge-" ++ link.id,
              source := (linkSourceId devices expanded link).getD "",
              target := "external-" ++ link.target.label,
              data := { utilization := link.utilization.getD 0,
                        status := link.status.getD "up" } }) := by
  intro links
  induction links with
  | nil => rfl
  | cons link rest ih =>
    unfold linkEdges at ih ⊢
    cases h : linkSourceId devices expanded link with
    | none =>
      simp only [List.filterMap_cons, h, Option.map_none', List.filter_cons,
        Option.isSome_none, Bool.false_eq_true, if_false]
      exact ih
    | some sid =>
      simp only [List.filterMap_cons, h, Option.map_some', List.filter_cons,
        Option.isSome_some, if_true, List.map_cons, Option.getD_some]
      rw [ih]

/-- **C4 (amended).** For every topology and expanded set, the external-link
edges of the composed output are exactly one edge per external link *whose
source endpoint resolves* (a resolvable device with a non-empty cluster id,
or failing that a non-empty source label), in link order: external links are
never deduplicated by endpoint pair, so k source-resolvable links to the same
target label yield k edges; a missing `utilization`/`status` field defaults
to `0`/`"up"`; a link whose source carries neither contributes no edge. -/
theorem c4_external_edges_amended (topo : Topology) (expandedClusters : List String) :
    linkEdges topo.devices expandedClusters topo.external_links =
      (topo.external_links.filter
          (fun link => (linkSourceId topo.devices expandedClusters link).isSome)).map
        (fun link =>
          { id := "edge-" ++ link.id,
            source := (linkSourceId topo.devices expandedClusters link).getD "",
            target := "external-" ++ link.target.label,
            data := { utilization := link.utilization.getD 0,
                      status := link.status.getD "up" } }) ∧
    (linkEdges topo.devices expandedClusters topo.external_links).length =
      (topo.external_links.filter
        (fun link => (linkSourceId topo.devices expandedClusters link).isSome)).length := by
  have h := linkEdges_eq_filter_map topo.devices expandedClusters topo.external_links
  exact ⟨h, by rw [h, List.length_map]⟩

/-! ## Claim C7: silent filtering of referential defects -/

/-- A node with the raw `device_ids` sequence embedded in a collapsed cluster
node's payload masked out.  Two node lists agreeing up to `nodeView` have the
same ids, kinds, positions, resolved-device payloads and external payloads;
only the verbatim `device_ids` list stored inside a collapsed cluster's raw
record may differ. -/
def nodeView (n : Node) : Node :=
  { n with data := match n.data with
      | .cluster c devs => .cluster { c with device_ids := [] } devs
      | d => d }

/-- A connection exhibiting one of the claim's referential defects renders no
endpoint pair. -/
theorem connRendered_eq_none_of_defect (devices : List (String × Device))
    (expanded : List String) (conn : Connection)
    (h : (∃ d, conn.source.device = some d ∧ lookupDevice devices d = none) ∨
         (∃ d, conn.target.device = some d ∧ lookupDevice devices d = none) ∨
         (∃ d dev, conn.source.device = some d ∧ lookupDevice devices d = some dev ∧
           dev.cluster_id = "") ∨
         (∃ d dev, conn.target.device = some d ∧ lookupDevice devices d = some dev ∧
           dev.cluster_id = "")) :
    connRendered devices expanded conn = none := by
  unfold connRendered
  by_cases hg : (otruthy conn.source.device && otruthy conn.target.device) = true
  · rw [if_pos hg]
    rcases h with ⟨d, hd, hl⟩ | ⟨d, hd, hl⟩ | ⟨d, dev, hd, hl, hc⟩ | ⟨d, dev, hd, hl, hc⟩
    · simp [hd, hl, otruthy]
    · simp [hd, hl, otruthy]
    · simp [hd, hl, hc, otruthy]
    · simp [hd, hl, hc, otruthy]
  · rw [if_neg hg]

/-- A dangling device id contributes nothing to the resolved device list. -/
theorem resolvedDevices_dangling (devices : List (String × Device)) (c : Cluster)
    (l₁ l₂ : List String) (x : String) (hx : lookupDevice devices x = none) :
    resolvedDevices devices { c with device_ids := l₁ ++ x :: l₂ } =
      resolvedDevices devices { c with device_ids := l₁ ++ l₂ } := by
  unfold resolvedDevices
  simp [List.filterMap_append, List.filterMap_cons, hx]

theorem getExpandedDevicePositions_congr (c c' : Cluster) (h : c.position = c'.position)
    (n : Nat) : getExpandedDevicePositions c n = getExpandedDevicePositions c' n := by
  unfold getExpandedDevicePositions
  rw [h]

/-- Inserting a dangling device id into a cluster's `device_ids` does not
change that cluster's emitted nodes (up to `nodeView`). -/
theorem clusterNodes_dangling (devices : List (String × Device)) (expanded : List String)
    (c : Cluster) (l₁ l₂ : List String) (x : String)
    (hx : lookupDevice devices x = none) :
    (clusterNodes devices expanded { c with device_ids := l₁ ++ x :: l₂ }).map nodeView =
      (clusterNodes devices expanded { c with device_ids := l₁ ++ l₂ }).map nodeView := by
  unfold clusterNodes
  rw [resolvedDevices_dangling devices c l₁ l₂ x hx]
  simp only [getExpandedDevicePositions_congr { c with device_ids := l₁ ++ x :: l₂ }
        { c with device_ids := l₁ ++ l₂ } rfl]
  by_cases hexp : c.id ∈ expanded <;> simp [hexp, nodeView]

/-- Nodes of the whole composition, up to `nodeView`, ignore a dangling
device id. -/
theorem topologyToNodes_dangling (topo : Topology) (expanded : List String)
    (cs₁ cs₂ : List Cluster) (c : Cluster) (l₁ l₂ : List String) (x : String)
    (hx : lookupDevice topo.devices x = none) :
    ((topologyToNodes
        { topo with clusters := cs₁ ++ { c with device_ids := l₁ ++ x :: l₂ } :: cs₂ }
        expanded).map nodeView) =
      ((topologyToNodes
        { topo with clusters := cs₁ ++ { c with device_ids := l₁ ++ l₂ } :: cs₂ }
        expanded).map nodeView) := by
  unfold topologyToNodes
  simp only [List.map_append, List.flatMap_append, List.flatMap_cons]
  rw [clusterNodes_dangling topo.devices expanded c l₁ l₂ x hx]

/-- An unresolvable connection can be inserted anywhere in the connection
list without changing the connection loop's output. -/
theorem processConns_unresolvable (devices : List (String × Device))
    (expanded : List String) (conn : Connection)
    (hconn : connRendered devices expanded conn = none) :
    ∀ (k₁ k₂ : List Connection) (seen : List String),
      processConns devices expanded (k₁ ++ conn :: k₂) seen =
        processConns devices expanded (k₁ ++ k₂) seen := by
  intro k₁
  induction k₁ with
  | nil =>
    intro k₂ seen
    simpa using processConns_cons_none devices expanded conn k₂ seen hconn
  | cons c' rest ih =>
    intro k₂ seen
    rw [List.cons_append, List.cons_append]
    cases hr : connRendered devices expanded c' with
    | none =>
      rw [processConns_cons_none _ _ _ _ _ hr, processConns_cons_none _ _ _ _ _ hr]
      exact ih k₂ seen
    | some st =>
      obtain ⟨s, t⟩ := st
      by_cases hst : s = t
      · rw [processConns_cons_self _ _ _ _ _ _ _ hr hst,
            processConns_cons_self _ _ _ _ _ _ _ hr hst]
        exact ih k₂ seen
      · cases hseen : seen.contains (edgeKey s t) with
        | true =>
          rw [processConns_cons_seen _ _ _ _ _ _ _ hr hst hseen,
              processConns_cons_seen _ _ _ _ _ _ _ hr hst hseen]
          exact ih k₂ seen
        | false =>
          rw [processConns_cons_new _ _ _ _ _ _ _ hr hst hseen,
              processConns_cons_new _ _ _ _ _ _ _ hr hst hseen]
          rw [ih k₂ (edgeKey s t :: seen)]

/-- **C7.** Composition never fails on referential defects and filters them
silently: a device id listed in a cluster's `device_ids` but absent from the
devices collection leaves the node list unaffected (up to the raw record
carried by a collapsed cluster payload, whose `device_ids` field is the only
place the dangling id still appears) and the edge list untouched; a connection
naming a device that does not exist, or a device whose owning cluster id is
empty, contributes no edge and leaves nodes and all other edges unchanged. -/
theorem c7_defect_tolerance (topo : Topology) (expandedClusters : List String)
    (cs₁ cs₂ : List Cluster) (c : Cluster) (l₁ l₂ : List String) (x : String)
    (hx : lookupDevice topo.devices x = none)
    (k₁ k₂ : List Connection) (conn : Connection)
    (hconn : (∃ d, conn.source.device = some d ∧ lookupDevice topo.devices d = none) ∨
             (∃ d, conn.target.device = some d ∧ lookupDevice topo.devices d = none) ∨
             (∃ d dev, conn.source.device = some d ∧
               lookupDevice topo.devices d = some dev ∧ dev.cluster_id = "") ∨
             (∃ d dev, conn.target.device = some d ∧
               lookupDevice topo.devices d = some dev ∧ dev.cluster_id = "")) :
    ((topologyToNodes
        { topo with clusters := cs₁ ++ { c with device_ids := l₁ ++ x :: l₂ } :: cs₂ }
        expandedClusters).map nodeView =
      (topologyToNodes
        { topo with clusters := cs₁ ++ { c with device_ids := l₁ ++ l₂ } :: cs₂ }
        expandedClusters).map nodeView) ∧
    (topologyToEdges
        { topo with clusters := cs₁ ++ { c with device_ids := l₁ ++ x :: l₂ } :: cs₂ }
        expandedClusters =
      topologyToEdges
        { topo with clusters := cs₁ ++ { c with device_ids := l₁ ++ l₂ } :: cs₂ }
        expandedClusters) ∧
    (topologyToNodes { topo with connections := k₁ ++ conn :: k₂ } expandedClusters =
      topologyToNodes { topo with connections := k₁ ++ k₂ } expandedClusters) ∧
    (topologyToEdges { topo with connections := k₁ ++ conn :: k₂ } expandedClusters =
      topologyToEdges { topo with connections := k₁ ++ k₂ } expandedClusters) := by
  refine ⟨topologyToNodes_dangling topo expandedClusters cs₁ cs₂ c l₁ l₂ x hx, rfl, rfl, ?_⟩
  show processConns topo.devices expandedClusters (k₁ ++ conn :: k₂) []
        ++ linkEdges topo.devices expandedClusters topo.external_links =
      processConns topo.devices expandedClusters (k₁ ++ k₂) []
        ++ linkEdges topo.devices expandedClusters topo.external_links
  rw [processConns_unresolvable topo.devices expandedClusters conn
        (connRendered_eq_none_of_defect topo.devices expandedClusters conn hconn) k₁ k₂ []]

theorem c7_defect_tolerance_witness :
    ((topologyToNodes
        { exTopoA with clusters :=
            [] ++ { mkCl "A" 0 0 ["d1", "d2"] with device_ids := ["d1"] ++ "ghost" :: ["d2"] }
              :: [mkCl "B" 400 0 ["d3"]] } ["A"]).map nodeView =
      (topologyToNodes
        { exTopoA with clusters :=
            [] ++ { mkCl "A" 0 0 ["d1", "d2"] with device_ids := ["d1"] ++ ["d2"] }
              :: [mkCl "B" 400 0 ["d3"]] } ["A"]).map nodeView) ∧
    (topologyToEdges
        { exTopoA with clusters :=
            [] ++ { mkCl "A" 0 0 ["d1", "d2"] with device_ids := ["d1"] ++ "ghost" :: ["d2"] }
              :: [mkCl "B" 400 0 ["d3"]] } ["A"] =
      topologyToEdges
        { exTopoA with clusters :=
            [] ++ { mkCl "A" 0 0 ["d1", "d2"] with device_ids := ["d1"] ++ ["d2"] }
              :: [mkCl "B" 400 0 ["d3"]] } ["A"]) ∧
    (topologyToNodes
        { exTopoA with connections :=
            [] ++ mkConn "bad" (mkEp (some "nope") none) (mkEp (some "d3") none) none none
              :: exTopoA.connections } ["A"] =
      topologyToNodes { exTopoA with connections := [] ++ exTopoA.connections } ["A"]) ∧
    (topologyToEdges
        { exTopoA with connections :=
            [] ++ mkConn "bad" (mkEp (some "nope") none) (mkEp (some "d3") none) none none
              :: exTopoA.connections } ["A"] =
      topologyToEdges { exTopoA with connections := [] ++ exTopoA.connections } ["A"]) :=
  c7_defect_tolerance exTopoA ["A"] [] [mkCl "B" 400 0 ["d3"]] (mkCl "A" 0 0 ["d1", "d2"])
    ["d1"] ["d2"] "ghost" (by decide) []
    exTopoA.connections
    (mkConn "bad" (mkEp (some "nope") none) (mkEp (some "d3") none) none none)
    (Or.inl ⟨"nope", rfl, by decide⟩)

/-! ## Claim C2: aggregation of collapsed connections -/

/-- Does an edge run (in either direction) between the two given node ids? -/
def pairMatch (A B : String) (e : Edge) : Bool :=
  (e.source == A && e.target == B) || (e.source == B && e.target == A)

/-- Does a connection render exactly the unordered endpoint pair `{A, B}`? -/
def rendersPairAB (devices : List (String × Device)) (expanded : List String)
    (A B : String) (c : Connection) : Bool :=
  match connRendered devices expanded c with
  | some (s, t) => (s == A && t == B) || (s == B && t == A)
  | none => false

/-- The rendered pair of this connection collides with the dedup key of
`(A, B)` only if it *is* the pair `{A, B}` (ids containing `"--"` can make the
sorted-join key non-injective; this predicate rules that out for `(A, B)`). -/
def keyCollisionFree (devices : List (String × Device)) (expanded : List String)
    (A B : String) (c : Connection) : Bool :=
  match connRendered devices expanded c with
  | some (s, t) =>
    !(edgeKey s t == edgeKey A B) || ((s == A && t == B) || (s == B && t == A))
  | none => true

/-- The edge the first pair-matching connection of the list would produce. -/
def firstPairEdge (devices : List (String × Device)) (expanded : List String)
    (A B : String) (conns : List Connection) : List Edge :=
  match conns.find? (rendersPairAB devices expanded A B) with
  | none => []
  | some c =>
    match connRendered devices expanded c with
    | some (s, t) =>
      [{ id := "edge-" ++ edgeKey s t, source := s, target := t,
         data := { utilization := c.utilization.getD 0,
                   status := c.status.getD "up" } }]
    | none => []

theorem edgeKey_of_pair (s t A B : String)
    (h : (s = A ∧ t = B) ∨ (s = B ∧ t = A)) : edgeKey s t = edgeKey A B := by
  rcases h with ⟨h1, h2⟩ | ⟨h1, h2⟩
  · rw [h1, h2]
  · rw [h1, h2, edgeKey_comm]

/-- No external-link edge runs between two ids of which neither is an
`external-` node id. -/
theorem filter_linkEdges_pair (devices : List (String × Device))
    (expanded : List String) (A B : String) :
    ∀ links : List ExternalLink,
      (∀ link ∈ links, "external-" ++ link.target.label ≠ A ∧
        "external-" ++ link.target.label ≠ B) →
      (linkEdges devices expanded links).filter (pairMatch A B) = [] := by
  intro links hext
  rw [List.filter_eq_nil_iff]
  intro e he
  unfold linkEdges at he
  obtain ⟨link, hlink, hfe⟩ := List.mem_filterMap.mp he
  obtain ⟨sid, _, hed⟩ := Option.map_eq_some'.mp hfe
  obtain ⟨hA, hB⟩ := hext link hlink
  intro hpm
  rw [← hed] at hpm
  unfold pairMatch at hpm
  simp only [Bool.or_eq_true, Bool.and_eq_true, beq_iff_eq] at hpm
  rcases hpm with ⟨_, h2⟩ | ⟨_, h2⟩
  · exact hB h2
  · exact hA h2

/-- Once the key of `{A, B}` is in the seen set, the connection loop emits no
further edge between `A` and `B`. -/
theorem processConns_filter_seen (devices : List (String × Device))
    (expanded : List String) (A B : String) :
    ∀ (conns : List Connection) (seen : List String),
      seen.contains (edgeKey A B) = true →
      (processConns devices expanded conns seen).filter (pairMatch A B) = [] := by
  intro conns
  induction conns with
  | nil => intro seen _; rfl
  | cons conn rest ih =>
    intro seen hseen
    cases hr : connRendered devices expanded conn with
    | none =>
      rw [processConns_cons_none _ _ _ _ _ hr]
      exact ih seen hseen
    | some st =>
      obtain ⟨s, t⟩ := st
      by_cases hst : s = t
      · rw [processConns_cons_self _ _ _ _ _ _ _ hr hst]
        exact ih seen hseen
      · cases hsn : seen.contains (edgeKey s t) with
        | true =>
          rw [processConns_cons_seen _ _ _ _ _ _ _ hr hst hsn]
          exact ih seen hseen
        | false =>
          rw [processConns_cons_new _ _ _ _ _ _ _ hr hst hsn]
          rw [List.filter_cons]
          have hpm : pairMatch A B
              { id := "edge-" ++ edgeKey s t, source := s, target := t,
                data := { utilization := conn.utilization.getD 0,
                          status := conn.status.getD "up" } } = false := by
            by_contra hc
            have hpm' : ((s = A ∧ t = B) ∨ (s = B ∧ t = A)) := by
              have := Bool.of_not_eq_false hc
              simpa [pairMatch] using this
            have hk := edgeKey_of_pair s t A B hpm'
            rw [hk, hseen] at hsn
            cases hsn
          rw [hpm]
          simp only [Bool.false_eq_true, if_false]
          exact ih (edgeKey s t :: seen)
            (by simp only [List.contains_cons, hseen, Bool.or_true])

theorem pairMatch_eq_true_iff (A B : String) (e : Edge) :
    pairMatch A B e = true ↔
      ((e.source = A ∧ e.target = B) ∨ (e.source = B ∧ e.target = A)) := by
  simp [pairMatch]

theorem rendersPairAB_eq_true_iff (devices : List (String × Device))
    (expanded : List String) (A B : String) (c : Connection) (s t : String)
    (hr : connRendered devices expanded c = some (s, t)) :
    rendersPairAB devices expanded A B c = true ↔
      ((s = A ∧ t = B) ∨ (s = B ∧ t = A)) := by
  simp [rendersPairAB, hr]

/-- While the key of `{A, B}` is not yet seen, the `A`–`B` edges emitted by
the connection loop are exactly the edge of the first connection rendering
the pair `{A, B}` (key collisions with other pairs ruled out). -/
theorem processConns_filter_new (devices : List (String × Device))
    (expanded : List String) (A B : String) (hAB : A ≠ B) :
    ∀ (conns : List Connection) (seen : List String),
      (∀ c ∈ conns, keyCollisionFree devices expanded A B c = true) →
      seen.contains (edgeKey A B) = false →
      (processConns devices expanded conns seen).filter (pairMatch A B) =
        firstPairEdge devices expanded A B conns := by
  intro conns
  induction conns with
  | nil => intro seen _ _; rfl
  | cons conn rest ih =>
    intro seen hcoll hseen
    have hcrest : ∀ c ∈ rest, keyCollisionFree devices expanded A B c = true :=
      fun c hc => hcoll c (List.mem_cons_of_mem _ hc)
    cases hr : connRendered devices expanded conn with
    | none =>
      have hrp : ¬ rendersPairAB devices expanded A B conn = true := by
        simp [rendersPairAB, hr]
      rw [processConns_cons_none _ _ _ _ _ hr, ih seen hcrest hseen]
      unfold firstPairEdge
      rw [List.find?_cons_of_neg _ hrp]
    | some st =>
      obtain ⟨s, t⟩ := st
      by_cases hst : s = t
      · have hrp : ¬ rendersPairAB devices expanded A B conn = true := by
          rw [rendersPairAB_eq_true_iff devices expanded A B conn s t hr]
          subst hst
          rintro (⟨h1, h2⟩ | ⟨h1, h2⟩) <;> exact hAB (by rw [← h1, h2])
        rw [processConns_cons_self _ _ _ _ _ _ _ hr hst, ih seen hcrest hseen]
        unfold firstPairEdge
        rw [List.find?_cons_of_neg _ hrp]
      · cases hsn : seen.contains (edgeKey s t) with
        | true =>
          have hrp : ¬ rendersPairAB devices expanded A B conn = true := by
            rw [rendersPairAB_eq_true_iff devices expanded A B conn s t hr]
            intro hpair
            rw [edgeKey_of_pair s t A B hpair, hseen] at hsn
            cases hsn
          rw [processConns_cons_seen _ _ _ _ _ _ _ hr hst hsn, ih seen hcrest hseen]
          unfold firstPairEdge
          rw [List.find?_cons_of_neg _ hrp]
        | false =>
          rw [processConns_cons_new _ _ _ _ _ _ _ hr hst hsn, List.filter_cons]
          by_cases hrp : rendersPairAB devices expanded A B conn = true
          · have hpair : (s = A ∧ t = B) ∨ (s = B ∧ t = A) :=
              (rendersPairAB_eq_true_iff devices expanded A B conn s t hr).mp hrp
            have hkey : edgeKey s t = edgeKey A B := edgeKey_of_pair s t A B hpair
            have hpm : pairMatch A B
                { id := "edge-" ++ edgeKey s t, source := s, target := t,
                  data := { utilization := conn.utilization.getD 0,
                            status := conn.status.getD "up" } } = true := by
              rw [pairMatch_eq_true_iff]
              exact hpair
            rw [hpm]
            simp only [if_true]
            rw [processConns_filter_seen devices expanded A B rest (edgeKey s t :: seen)
                  (by simp [List.contains_cons, hkey])]
            unfold firstPairEdge
            rw [List.find?_cons_of_pos _ hrp]
            simp only [hr]
          · have hpm : pairMatch A B
                { id := "edge-" ++ edgeKey s t, source := s, target := t,
                  data := { utilization := conn.utilization.getD 0,
                            status := conn.status.getD "up" } } = false := by
              cases h : pairMatch A B
                  { id := "edge-" ++ edgeKey s t, source := s, target := t,
                    data := { utilization := conn.utilization.getD 0,
                              status := conn.status.getD "up" } } with
              | false => rfl
              | true =>
                rw [pairMatch_eq_true_iff] at h
                exact absurd ((rendersPairAB_eq_true_iff devices expanded A B conn s t hr).mpr
                  (by simpa using h)) hrp
            have hkeyne : edgeKey A B ≠ edgeKey s t := by
              intro hk
              have hc2 := hcoll conn (List.mem_cons_self _ _)
              unfold keyCollisionFree at hc2
              rw [hr] at hc2
              rw [hk] at hc2
              simp only [beq_self_eq_true, Bool.not_true, Bool.false_or] at hc2
              exact hrp ((rendersPairAB_eq_true_iff devices expanded A B conn s t hr).mpr
                (by simpa using hc2))
            rw [hpm]
            simp only [Bool.false_eq_true, if_false]
            rw [ih (edgeKey s t :: seen) hcrest
                (by simp only [List.contains_cons, Bool.or_eq_false_iff]
                    exact ⟨by simp [hkeyne], hseen⟩)]
            unfold firstPairEdge
            rw [List.find?_cons_of_neg _ hrp]

/-- Four clusters whose ids make the sorted-join dedup key collide:
`sort(["a--b","c"]).join("--") = sort(["a","b--c"]).join("--") = "a--b--c"`. -/
def exTopoC2 : Topology :=
  { clusters := [mkCl "a--b" 0 0 ["d1"], mkCl "c" 100 0 ["d2"],
                 mkCl "a" 200 0 ["d3"], mkCl "b--c" 300 0 ["d4"]],
    devices := [("d1", mkDev "d1" "a--b"), ("d2", mkDev "d2" "c"),
                ("d3", mkDev "d3" "a"), ("d4", mkDev "d4" "b--c")],
    connections :=
      [mkConn "c1" (mkEp (some "d1") none) (mkEp (some "d2") none) (some 30) (some "up"),
       mkConn "c2" (mkEp (some "d3") none) (mkEp (some "d4") none) (some 50) (some "down")],
    external_links := [] }

/-- **C2 counterexample.**  A connection (`c2`) renders the unordered pair of
the two distinct, both-collapsed cluster ids `{"a", "b--c"}` (so `N = 1`), yet
the composed edge list contains *zero* edges between those two cluster ids:
the earlier connection `c1`, rendering the different pair `{"a--b", "c"}`,
produced the same dedup key `"a--b--c"`, so `c2` was suppressed. -/
theorem c2_aggregation_counterexample :
    ("a" : String) ≠ "b--c" ∧
    "a" ∈ exTopoC2.clusters.map (·.id) ∧
    "b--c" ∈ exTopoC2.clusters.map (·.id) ∧
    (mkConn "c2" (mkEp (some "d3") none) (mkEp (some "d4") none) (some 50) (some "down"))
      ∈ exTopoC2.connections ∧
    connRendered exTopoC2.devices []
        (mkConn "c2" (mkEp (some "d3") none) (mkEp (some "d4") none) (some 50) (some "down"))
      = some ("a", "b--c") ∧
    (topologyToEdges exTopoC2 []).filter (pairMatch "a" "b--c") = [] := by
  decide

/-- **C2 (amended).** For every topology and expanded set, and every N ≥ 1
device-level connections whose rendered endpoints collapse to the same
unordered pair of two distinct cluster ids (both collapsed), *provided* no
other rendered pair collides with that pair's dedup key and no external-link
target node id coincides with either cluster id, the composed edge list
contains exactly one edge between those two cluster ids, and that edge's
payload (utilization, status) is taken from the first such connection in
connection order; later connections mapping to the same unordered pair are
suppressed, not merged numerically. -/
theorem c2_aggregation_amended (topo : Topology) (expandedClusters : List String)
    (A B s₀ t₀ : String) (c₀ : Connection)
    (hAB : A ≠ B)
    (hclA : A ∈ topo.clusters.map (·.id)) (hclB : B ∈ topo.clusters.map (·.id))
    (hcolA : A ∉ expandedClusters) (hcolB : B ∉ expandedClusters)
    (hcoll : ∀ c ∈ topo.connections,
      keyCollisionFree topo.devices expandedClusters A B c = true)
    (hext : ∀ link ∈ topo.external_links,
      "external-" ++ link.target.label ≠ A ∧ "external-" ++ link.target.label ≠ B)
    (hfirst : topo.connections.find?
      (rendersPairAB topo.devices expandedClusters A B) = some c₀)
    (hc₀ : connRendered topo.devices expandedClusters c₀ = some (s₀, t₀)) :
    (topologyToEdges topo expandedClusters).filter (pairMatch A B) =
      [{ id := "edge-" ++ edgeKey s₀ t₀, source := s₀, target := t₀,
         data := { utilization := c₀.utilization.getD 0,
                   status := c₀.status.getD "up" } }] := by
  unfold topologyToEdges
  rw [List.filter_append]
  rw [processConns_filter_new topo.devices expandedClusters A B hAB topo.connections []
        hcoll rfl]
  rw [filter_linkEdges_pair topo.devices expandedClusters A B topo.external_links hext]
  rw [List.append_nil]
  unfold firstPairEdge
  rw [hfirst]
  simp only [hc₀]

/-- Two collapsed clusters joined by two device-level connections. -/
def exTopoC2w : Topology :=
  { clusters := [mkCl "X" 0 0 ["d1", "d3"], mkCl "Y" 400 0 ["d2", "d4"]],
    devices := [("d1", mkDev "d1" "X"), ("d2", mkDev "d2" "Y"),
                ("d3", mkDev "d3" "X"), ("d4", mkDev "d4" "Y")],
    connections :=
      [mkConn "c1" (mkEp (some "d1") none) (mkEp (some "d2") none) (some 30) (some "up"),
       mkConn "c2" (mkEp (some "d3") none) (mkEp (some "d4") none) (some 50) (some "down")],
    external_links := [] }

theorem c2_aggregation_amended_witness :
    (topologyToEdges exTopoC2w []).filter (pairMatch "X" "Y") =
      [{ id := "edge-X--Y", source := "X", target := "Y",
         data := { utilization := 30, status := "up" } }] :=
  c2_aggregation_amended exTopoC2w [] "X" "Y" "X" "Y"
    (mkConn "c1" (mkEp (some "d1") none) (mkEp (some "d2") none) (some 30) (some "up"))
    (by decide) (by decide) (by decide) (by decide) (by decide) (by decide)
    (by decide) (by decide) (by decide)

/-! ## Claims C8/C9: synthesis of external nodes -/

/-- The entry created by the *first registering occurrence* of label `L`
among the external links, walked in order with their index.  A registering
occurrence is a link whose target label is `L` (entry from the target,
`y = 100 + index*120`) or, failing that, whose source carries the non-empty
label `L` — *regardless of whether the source also carries a device* (entry
`campus`/`building`, `y = 100 + (index+1)*120`).  This is the amended claim's
occurrence notion, matching the registration events the loop performs; the
frozen claim instead counted only targets and *label-only* sources, which the
counterexample below refutes. -/
def specFirstRegistration (L : String) : List ExternalLink → Nat → Option ExtEntry
  | [], _ => none
  | link :: rest, index =>
    if link.target.label = L then some (targetEntry link index)
    else if otruthy link.source.label && (link.source.label.getD "" == L) then
      some (sourceEntry link index)
    else specFirstRegistration L rest (index + 1)

theorem filter_label_append_ne (acc : List ExtEntry) (e : ExtEntry) (L : String)
    (h : ¬ e.label = L) :
    (acc ++ [e]).filter (fun x => x.label == L) =
      acc.filter (fun x => x.label == L) := by
  simp [List.filter_append, List.filter_cons, h]

theorem filter_label_append_eq (acc : List ExtEntry) (e : ExtEntry) (L : String)
    (h : e.label = L) :
    (acc ++ [e]).filter (fun x => x.label == L) =
      acc.filter (fun x => x.label == L) ++ [e] := by
  simp [List.filter_append, List.filter_cons, h]

theorem any_label_append (acc : List ExtEntry) (e : ExtEntry) (L : String) :
    (acc ++ [e]).any (fun x => x.label == L) =
      (acc.any (fun x => x.label == L) || (e.label == L)) := by
  simp [List.any_append]

/-- Once an entry for `L` is registered, later links neither add another one
nor change the existing ones. -/
theorem synthExternalAux_filter_of_any (L : String) :
    ∀ (links : List ExternalLink) (index : Nat) (acc : List ExtEntry),
      acc.any (fun e => e.label == L) = true →
      (synthExternalAux links index acc).filter (fun e => e.label == L) =
        acc.filter (fun e => e.label == L) := by
  intro links
  induction links with
  | nil => intro index acc _; rfl
  | cons link rest ih =>
    intro index acc hP
    simp only [synthExternalAux]
    by_cases hg1 : acc.any (fun e => e.label == link.target.label) = true
    · rw [if_pos hg1]
      by_cases hg2 : (otruthy link.source.label &&
          !(acc.any (fun e => e.label == link.source.label.getD ""))) = true
      · rw [if_pos hg2]
        have hne : ¬ (sourceEntry link index).label = L := by
          intro h
          have h' : link.source.label.getD "" = L := h
          rw [h'] at hg2
          rw [hP] at hg2
          simp at hg2
        rw [ih (index + 1) _ (by rw [any_label_append]; rw [hP]; rfl)]
        exact filter_label_append_ne acc _ L hne
      · rw [if_neg hg2]
        exact ih (index + 1) acc hP
    · rw [if_neg hg1]
      have hneT : ¬ (targetEntry link index).label = L := by
        intro h
        have h' : link.target.label = L := h
        rw [h'] at hg1
        exact hg1 hP
      have hP1 : (acc ++ [targetEntry link index]).any (fun e => e.label == L) = true := by
        rw [any_label_append, hP]
        rfl
      by_cases hg2 : (otruthy link.source.label &&
          !((acc ++ [targetEntry link index]).any
                (fun e => e.label == link.source.label.getD ""))) = true
      · rw [if_pos hg2]
        have hneS : ¬ (sourceEntry link index).label = L := by
          intro h
          have h' : link.source.label.getD "" = L := h
          rw [h'] at hg2
          rw [hP1] at hg2
          simp at hg2
        rw [ih (index + 1) _ (by rw [any_label_append, hP1]; rfl)]
        rw [filter_label_append_ne _ _ L hneS]
        exact filter_label_append_ne acc _ L hneT
      · rw [if_neg hg2]
        rw [ih (index + 1) _ hP1]
        exact filter_label_append_ne acc _ L hneT

theorem filter_label_eq_nil_of_any_eq_false (acc : List ExtEntry) (L : String)
    (h : acc.any (fun e => e.label == L) = false) :
    acc.filter (fun e => e.label == L) = [] := by
  rw [List.filter_eq_nil_iff]
  intro e he hc
  exact (List.any_eq_false.mp h) e he hc

/-- While no entry for `L` is registered yet, the entry for `L` produced by
the loop is exactly the entry of the first registering occurrence. -/
theorem synthExternalAux_filter_of_not_any (L : String) :
    ∀ (links : List ExternalLink) (index : Nat) (acc : List ExtEntry),
      acc.any (fun e => e.label == L) = false →
      (synthExternalAux links index acc).filter (fun e => e.label == L) =
        (specFirstRegistration L links index).toList := by
  intro links
  induction links with
  | nil =>
    intro index acc hP
    exact filter_label_eq_nil_of_any_eq_false acc L hP
  | cons link rest ih =>
    intro index acc hP
    have hfacc : acc.filter (fun e => e.label == L) = [] :=
      filter_label_eq_nil_of_any_eq_false acc L hP
    simp only [synthExternalAux, specFirstRegistration]
    by_cases hT : link.target.label = L
    · have hTe : (targetEntry link index).label = L := hT
      have hg1 : ¬ acc.any (fun e => e.label == link.target.label) = true := by
        rw [hT, hP]
        simp
      rw [if_neg hg1, if_pos hT]
      have hP1 : (acc ++ [targetEntry link index]).any (fun e => e.label == L) = true := by
        rw [any_label_append, hTe]
        simp
      have hf1 : (acc ++ [targetEntry link index]).filter (fun e => e.label == L) =
          [targetEntry link index] := by
        rw [filter_label_append_eq acc _ L hTe, hfacc]
        rfl
      by_cases hg2 : (otruthy link.source.label &&
          !((acc ++ [targetEntry link index]).any
              (fun e => e.label == link.source.label.getD ""))) = true
      · rw [if_pos hg2]
        have hneS : ¬ (sourceEntry link index).label = L := by
          intro h
          have h' : link.source.label.getD "" = L := h
          rw [h'] at hg2
          rw [hP1] at hg2
          simp at hg2
        rw [synthExternalAux_filter_of_any L rest (index + 1) _
              (by rw [any_label_append, hP1]; rfl)]
        rw [filter_label_append_ne _ _ L hneS, hf1]
        rfl
      · rw [if_neg hg2]
        rw [synthExternalAux_filter_of_any L rest (index + 1) _ hP1, hf1]
        rfl
    · have hTe : ¬ (targetEntry link index).label = L := hT
      rw [if_neg hT]
      by_cases hg1 : acc.any (fun e => e.label == link.target.label) = true
      · rw [if_pos hg1]
        by_cases hS : (otruthy link.source.label && (link.source.label.getD "" == L)) = true
        · have hot : otruthy link.source.label = true := by
            have h' := hS
            simp only [Bool.and_eq_true] at h'
            exact h'.1
          have hgD : link.source.label.getD "" = L := by
            have h' := hS
            simp only [Bool.and_eq_true] at h'
            simpa using h'.2
          have hSe : (sourceEntry link index).label = L := hgD
          rw [if_pos hS]
          have hg2 : (otruthy link.source.label &&
              !(acc.any (fun e => e.label == link.source.label.getD ""))) = true := by
            rw [hot, hgD, hP]
            rfl
          rw [if_pos hg2]
          rw [synthExternalAux_filter_of_any L rest (index + 1) _
                (by rw [any_label_append, hSe, hP]; simp)]
          rw [filter_label_append_eq acc _ L hSe, hfacc]
          rfl
        · rw [if_neg hS]
          by_cases hg2 : (otruthy link.source.label &&
              !(acc.any (fun e => e.label == link.source.label.getD ""))) = true
          · have hot : otruthy link.source.label = true := by
              have h' := hg2
              simp only [Bool.and_eq_true] at h'
              exact h'.1
            have hneS : ¬ (sourceEntry link index).label = L := by
              intro h
              have h' : link.source.label.getD "" = L := h
              exact hS (by rw [hot, h']; simp)
            rw [if_pos hg2]
            rw [ih (index + 1) _ (by rw [any_label_append, hP]
                                     simp only [Bool.false_or]
                                     simpa using hneS)]
          · rw [if_neg hg2]
            exact ih (index + 1) acc hP
      · rw [if_neg hg1]
        have hP1 : (acc ++ [targetEntry link index]).any (fun e => e.label == L) = false := by
          rw [any_label_append, hP]
          simpa using hTe
        have hf1 : (acc ++ [targetEntry link index]).filter (fun e => e.label == L) = [] := by
          rw [filter_label_append_ne acc _ L hTe, hfacc]
        by_cases hS : (otruthy link.source.label && (link.source.label.getD "" == L)) = true
        · have hot : otruthy link.source.label = true := by
            have h' := hS
            simp only [Bool.and_eq_true] at h'
            exact h'.1
          have hgD : link.source.label.getD "" = L := by
            have h' := hS
            simp only [Bool.and_eq_true] at h'
            simpa using h'.2
          have hSe : (sourceEntry link index).label = L := hgD
          rw [if_pos hS]
          have hg2 : (otruthy link.source.label &&
              !((acc ++ [targetEntry link index]).any
                  (fun e => e.label == link.source.label.getD ""))) = true := by
            rw [hot, hgD, hP1]
            rfl
          rw [if_pos hg2]
          rw [synthExternalAux_filter_of_any L rest (index + 1) _
                (by rw [any_label_append, hSe, hP1]; simp)]
          rw [filter_label_append_eq _ _ L hSe, hf1]
          rfl
        · rw [if_neg hS]
          by_cases hg2 : (otruthy link.source.label &&
              !((acc ++ [targetEntry link index]).any
                  (fun e => e.label == link.source.label.getD ""))) = true
          · have hot : otruthy link.source.label = true := by
              have h' := hg2
              simp only [Bool.and_eq_true] at h'
              exact h'.1
            have hneS : ¬ (sourceEntry link index).label = L := by
              intro h
              have h' : link.source.label.getD "" = L := h
              exact hS (by rw [hot, h']; simp)
            rw [if_pos hg2]
            rw [ih (index + 1) _ (by rw [any_label_append, hP1]
                                     simp only [Bool.false_or]
                                     simpa using hneS)]
          · rw [if_neg hg2]
            exact ih (index + 1) _ hP1

theorem string_append_left_cancel (p a b : String) (h : p ++ a = p ++ b) : a = b := by
  have hd := congrArg String.data h
  rw [String.data_append, String.data_append] at hd
  exact String.ext (List.append_cancel_left hd)

theorem beq_append_left (p a b : String) : ((p ++ a) == (p ++ b)) = (a == b) := by
  cases h : a == b with
  | true =>
    have hab : a = b := beq_iff_eq.mp h
    rw [hab]
    simp
  | false =>
    have hne : a ≠ b := by simpa using h
    have hne2 : ¬ (p ++ a = p ++ b) := fun hc => hne (string_append_left_cancel p a b hc)
    simpa using hne2

/-- The entry the loop keeps for label `L`, starting from the empty map. -/
theorem synthExternal_filter (links : List ExternalLink) (L : String) :
    (synthExternal links).filter (fun e => e.label == L) =
      (specFirstRegistration L links 0).toList :=
  synthExternalAux_filter_of_not_any L links 0 [] rfl

/-- A device-carrying source whose label `X` precedes (at index 0) the only
occurrence of `X` that the frozen claim counts (the target of the third
link, index 2). -/
def exTopoC8 : Topology :=
  { clusters := [], devices := [], connections := [],
    external_links :=
      [mkLink "A" (mkEp (some "d") (some "X")) "T1" "cloud" "cloud" none none,
       mkLink "B" (mkEp none none) "T2" "cloud" "cloud" none none,
       mkLink "C" (mkEp none none) "X" "site" "globe" none none] }

/-- **C8 counterexample.** The first occurrence of a label among targets and
*label-only* sources does not fix the node's position: here the only such
occurrence of `"X"` is the third link's target (index 2), whose vertical
stacking rule would give `y = 100 + 2*120 = 340` with the target's
`site`/`globe` payload — but the composed node `external-X` was registered by
the *first* link's device-carrying source (a non-occurrence under the claim)
at `y = 100 + (0+1)*120 = 220` with the `campus`/`building` payload. -/
theorem c8_external_label_counterexample :
    (exTopoC8.external_links.map (fun l => (l.target.label == "X" ||
        (l.source.device == none && l.source.label == some "X")))) =
      [false, false, true] ∧
    (topologyToNodes exTopoC8 []).filter (fun n => n.id == "external-X") =
      [{ id := "external-X", type := "external", position := { x := 50, y := 220 },
         data := .external "X" "campus" "building" }] := by
  decide

/-- **C8 (amended).** For every list of external links and every label `L`,
the composed external nodes contain exactly the node of the first
*registering* occurrence of `L` — a link whose target label is `L` or whose
source carries the non-empty label `L`, regardless of any device on the
source — and none when `L` never occurs: any number of links sharing the
label produce exactly one External Node `external-L`; the first registering
occurrence in link order fixes its position; later occurrences create no
node and do not change it. -/
theorem c8_external_label_first_registration (links : List ExternalLink) (L : String) :
    (externalNodes links).filter (fun n => n.id == "external-" ++ L) =
      ((specFirstRegistration L links 0).map (fun e =>
        ({ id := "external-" ++ e.label, type := "external",
           position := { x := e.x, y := e.y },
           data := .external e.label e.type e.icon } : Node))).toList := by
  unfold externalNodes
  rw [List.filter_map]
  have hpred : ((fun n : Node => n.id == "external-" ++ L) ∘ (fun e : ExtEntry =>
      ({ id := "external-" ++ e.label, type := "external",
         position := { x := e.x, y := e.y },
         data := .external e.label e.type e.icon } : Node))) =
      (fun e : ExtEntry => e.label == L) := by
    funext e
    show (("external-" ++ e.label) == ("external-" ++ L)) = (e.label == L)
    exact beq_append_left "external-" e.label L
  rw [hpred, synthExternal_filter links L]
  cases specFirstRegistration L links 0 with
  | none => rfl
  | some e => rfl

theorem specFirstRegistration_isSome_iff (L : String) :
    ∀ (links : List ExternalLink) (index : Nat),
      (specFirstRegistration L links index).isSome = true ↔
        ∃ link ∈ links, link.target.label = L ∨
          (otruthy link.source.label = true ∧ link.source.label.getD "" = L) := by
  intro links
  induction links with
  | nil => intro index; simp [specFirstRegistration]
  | cons link rest ih =>
    intro index
    simp only [specFirstRegistration]
    by_cases hT : link.target.label = L
    · rw [if_pos hT]
      simp only [Option.isSome_some, true_iff]
      exact ⟨link, List.mem_cons_self _ _, Or.inl hT⟩
    · rw [if_neg hT]
      by_cases hS : (otruthy link.source.label && (link.source.label.getD "" == L)) = true
      · rw [if_pos hS]
        simp only [Option.isSome_some, true_iff]
        have h' := hS
        simp only [Bool.and_eq_true] at h'
        exact ⟨link, List.mem_cons_self _ _, Or.inr ⟨h'.1, by simpa using h'.2⟩⟩
      · rw [if_neg hS]
        rw [ih (index + 1)]
        constructor
        · rintro ⟨l, hl, hcond⟩
          exact ⟨l, List.mem_cons_of_mem _ hl, hcond⟩
        · rintro ⟨l, hl, hcond⟩
          rcases List.mem_cons.mp hl with rfl | hl'
          · rcases hcond with h | ⟨h1, h2⟩
            · exact absurd h hT
            · exact absurd (by rw [h1, h2]; simp : (otruthy l.source.label &&
                (l.source.label.getD "" == L)) = true) hS
          · exact ⟨l, hl', hcond⟩

/-- The cluster loop emits only `device` and `cluster` typed nodes. -/
theorem clusterNodes_type_ne_external (devices : List (String × Device))
    (expanded : List String) (c : Cluster) (n : Node)
    (hn : n ∈ clusterNodes devices expanded c) : ¬ n.type = "external" := by
  unfold clusterNodes at hn
  by_cases h : expanded.contains c.id = true
  · rw [if_pos h] at hn
    obtain ⟨p, _, hpn⟩ := List.mem_map.mp hn
    rw [← hpn]
    simp
  · rw [if_neg h] at hn
    rcases List.mem_singleton.mp hn with rfl
    simp

/-- Membership of an `external`-typed node with id `external-L` in the
composed node list is equivalent to an entry for `L` in the synthesized map. -/
theorem external_node_mem_iff (topo : Topology) (expandedClusters : List String)
    (L : String) :
    (∃ n ∈ topologyToNodes topo expandedClusters,
        n.type = "external" ∧ n.id = "external-" ++ L) ↔
      (specFirstRegistration L topo.external_links 0).isSome = true := by
  constructor
  · rintro ⟨n, hn, htype, hid⟩
    unfold topologyToNodes at hn
    rcases List.mem_append.mp hn with hn' | hn'
    · obtain ⟨c, _, hcn⟩ := List.mem_flatMap.mp hn'
      exact absurd htype (clusterNodes_type_ne_external topo.devices expandedClusters c n hcn)
    · unfold externalNodes at hn'
      obtain ⟨e, he, hen⟩ := List.mem_map.mp hn'
      have hlab : e.label = L := by
        apply string_append_left_cancel "external-"
        rw [← hid, ← hen]
      have hmem : e ∈ (synthExternal topo.external_links).filter
          (fun e => e.label == L) :=
        List.mem_filter.mpr ⟨he, by simp [hlab]⟩
      rw [synthExternal_filter] at hmem
      cases hspec : specFirstRegistration L topo.external_links 0 with
      | none => rw [hspec] at hmem; cases hmem
      | some _ => rfl
  · intro hsome
    obtain ⟨e, hspec⟩ := Option.isSome_iff_exists.mp hsome
    have he : e ∈ (synthExternal topo.external_links).filter (fun e => e.label == L) := by
      rw [synthExternal_filter, hspec]
      exact List.mem_singleton.mpr rfl
    obtain ⟨hmem, hlabb⟩ := List.mem_filter.mp he
    have hlab : e.label = L := by simpa using hlabb
    refine ⟨{ id := "external-" ++ e.label, type := "external",
              position := { x := e.x, y := e.y },
              data := .external e.label e.type e.icon }, ?_, rfl, by rw [hlab]⟩
    unfold topologyToNodes
    apply List.mem_append_right
    unfold externalNodes
    exact List.mem_map.mpr ⟨e, hmem, rfl⟩

/-- An external link whose source carries a device *and* a label. -/
def exTopoC9 : Topology :=
  { clusters := [mkCl "F" 0 0 ["d"]], devices := [("d", mkDev "d" "F")],
    connections := [],
    external_links :=
      [mkLink "L" (mkEp (some "d") (some "S")) "T" "cloud" "cloud" none none] }

/-- **C9 counterexample.** A source endpoint that carries a device *does*
give rise to a source External Node: the registration guard checks only
`link.source.label`, not the absence of a device, so the node `external-S`
is created even though the source also carries device `d`. -/
theorem c9_source_label_counterexample :
    (exTopoC9.external_links.map (fun l => l.source.device)) = [some "d"] ∧
    (topologyToNodes exTopoC9 []).any
      (fun n => n.id == "external-S" && n.type == "external") = true := by
  decide

/-- **C9 (amended).** An External Node for a link's source label is created
whenever the source carries a non-empty label that is not yet registered,
*regardless of whether the source also carries a device*: an
`external`-typed node `external-L` appears in the composed output exactly
when some link has target label `L` or a non-empty source label `L`. -/
theorem c9_source_label_amended (topo : Topology) (expandedClusters : List String)
    (L : String) :
    (∃ n ∈ topologyToNodes topo expandedClusters,
        n.type = "external" ∧ n.id = "external-" ++ L) ↔
      (∃ link ∈ topo.external_links, link.target.label = L ∨
        (otruthy link.source.label = true ∧ link.source.label.getD "" = L)) := by
  rw [external_node_mem_iff topo expandedClusters L]
  exact specFirstRegistration_isSome_iff L topo.external_links 0

/-! ## Claim C5: uniqueness of node ids -/

/-- A cluster whose id collides with a synthesized external node id. -/
def exTopoC5 : Topology :=
  { clusters := [mkCl "external-Internet" 0 0 []], devices := [], connections := [],
    external_links := [mkLink "L" (mkEp none none) "Internet" "cloud" "cloud" none none] }

/-- **C5 counterexample.** Node ids are not always pairwise distinct: a
cluster whose id is literally `external-Internet` collides with the External
Node synthesized for the label `Internet`, and nothing in the composer
prevents or detects this. -/
theorem c5_node_id_counterexample :
    ¬ ((topologyToNodes exTopoC5 []).map (·.id)).Nodup := by decide

/-- All node ids the cluster loop can draw on: each cluster's id followed by
the ids of its resolved devices, in declared order. -/
def allIds (topo : Topology) : List String :=
  topo.clusters.flatMap (fun c => c.id :: (resolvedDevices topo.devices c).map (·.id))

theorem flatMap_sublist {α β : Type} (l : List α) (f g : α → List β)
    (h : ∀ a ∈ l, (f a).Sublist (g a)) : (l.flatMap f).Sublist (l.flatMap g) := by
  induction l with
  | nil => exact List.Sublist.refl _
  | cons a as ih =>
    rw [List.flatMap_cons, List.flatMap_cons]
    exact List.Sublist.append (h a (List.mem_cons_self _ _))
      (ih (fun b hb => h b (List.mem_cons_of_mem _ hb)))

theorem clusterNodes_ids_sublist (devices : List (String × Device))
    (expanded : List String) (c : Cluster) :
    ((clusterNodes devices expanded c).map (·.id)).Sublist
      (c.id :: (resolvedDevices devices c).map (·.id)) := by
  unfold clusterNodes
  by_cases h : expanded.contains c.id = true
  · rw [if_pos h]
    rw [List.map_map]
    have hcomp : ((fun n : Node => n.id) ∘ (fun p : Device × Pt =>
        ({ id := p.1.id, type := "device", position := p.2,
           data := .device p.1 c.id "#39d5ff" } : Node))) =
        ((fun d : Device => d.id) ∘ Prod.fst) := rfl
    rw [hcomp, ← List.map_map]
    have hlen : (resolvedDevices devices c).length ≤
        (getExpandedDevicePositions c (resolvedDevices devices c).length).length := by
      unfold getExpandedDevicePositions
      rw [List.length_map, List.length_range]
    rw [List.map_fst_zip _ _ hlen]
    exact List.sublist_cons_self _ _
  · rw [if_neg h]
    rw [List.map_cons, List.map_nil]
    exact List.cons_sublist_cons.mpr (List.nil_sublist _)

theorem topologyToNodes_cluster_ids_sublist (topo : Topology)
    (expandedClusters : List String) :
    ((topo.clusters.flatMap (clusterNodes topo.devices expandedClusters)).map
        (·.id)).Sublist (allIds topo) := by
  rw [List.map_flatMap]
  exact flatMap_sublist _ _ _
    (fun c _ => clusterNodes_ids_sublist topo.devices expandedClusters c)

theorem labels_nodup_append_entry (acc : List ExtEntry) (e : ExtEntry)
    (h : (acc.map (·.label)).Nodup)
    (hn : acc.any (fun x => x.label == e.label) = false) :
    ((acc ++ [e]).map (·.label)).Nodup := by
  rw [List.map_append, List.map_cons, List.map_nil, List.nodup_append]
  refine ⟨h, List.nodup_singleton _, ?_⟩
  intro a ha hb
  rcases List.mem_singleton.mp hb with rfl
  obtain ⟨x, hx, hxa⟩ := List.mem_map.mp ha
  have hfalse := List.any_eq_false.mp hn x hx
  exact hfalse (by simp [hxa])

/-- The synthesized external endpoints carry pairwise distinct labels. -/
theorem synthExternalAux_labels_nodup :
    ∀ (links : List ExternalLink) (index : Nat) (acc : List ExtEntry),
      (acc.map (·.label)).Nodup →
      ((synthExternalAux links index acc).map (·.label)).Nodup := by
  intro links
  induction links with
  | nil => intro index acc h; exact h
  | cons link rest ih =>
    intro index acc h
    simp only [synthExternalAux]
    by_cases hg1 : acc.any (fun e => e.label == link.target.label) = true
    · rw [if_pos hg1]
      by_cases hg2 : (otruthy link.source.label &&
          !(acc.any (fun e => e.label == link.source.label.getD ""))) = true
      · rw [if_pos hg2]
        apply ih
        apply labels_nodup_append_entry acc _ h
        have h2 := hg2
        simp only [Bool.and_eq_true] at h2
        simpa using h2.2
      · rw [if_neg hg2]
        exact ih (index + 1) acc h
    · rw [if_neg hg1]
      have h1 : ((acc ++ [targetEntry link index]).map (·.label)).Nodup :=
        labels_nodup_append_entry acc _ h (by simpa using hg1)
      by_cases hg2 : (otruthy link.source.label &&
          !((acc ++ [targetEntry link index]).any
              (fun e => e.label == link.source.label.getD ""))) = true
      · rw [if_pos hg2]
        apply ih
        apply labels_nodup_append_entry _ _ h1
        have h2 := hg2
        simp only [Bool.and_eq_true] at h2
        simpa using h2.2
      · rw [if_neg hg2]
        exact ih (index + 1) _ h1

theorem charsIsPrefixOf_append (l₁ l₂ : List Char) :
    l₁.isPrefixOf (l₁ ++ l₂) = true := by
  induction l₁ with
  | nil => simp [List.isPrefixOf]
  | cons a as ih => simp [List.isPrefixOf, ih]

/-- **C5 (amended).** Node ids are pairwise distinct for every well-formed
topology: provided the cluster ids together with the resolved device ids are
pairwise distinct, and none of them starts with the characters `external-`
(so no cluster or device id can collide with a synthesized external node
id), no two emitted cluster, device, or external nodes share an id. -/
theorem c5_node_ids_amended (topo : Topology) (expandedClusters : List String)
    (hAll : (allIds topo).Nodup)
    (hNoExt : ∀ s ∈ allIds topo, ("external-".data.isPrefixOf s.data) = false) :
    ((topologyToNodes topo expandedClusters).map (·.id)).Nodup := by
  unfold topologyToNodes
  rw [List.map_append, List.nodup_append]
  refine ⟨hAll.sublist (topologyToNodes_cluster_ids_sublist topo expandedClusters),
    ?_, ?_⟩
  · unfold externalNodes
    rw [List.map_map]
    have hcomp : ((fun n : Node => n.id) ∘ (fun e : ExtEntry =>
        ({ id := "external-" ++ e.label, type := "external",
           position := { x := e.x, y := e.y },
           data := .external e.label e.type e.icon } : Node))) =
        ((fun l => "external-" ++ l) ∘ (fun e : ExtEntry => e.label)) := rfl
    rw [hcomp, ← List.map_map]
    apply List.Nodup.map
    · intro a b hab
      exact string_append_left_cancel "external-" a b hab
    · exact synthExternalAux_labels_nodup topo.external_links 0 [] List.nodup_nil
  · intro a ha hb
    have haAll : a ∈ allIds topo :=
      (topologyToNodes_cluster_ids_sublist topo expandedClusters).subset ha
    unfold externalNodes at hb
    rw [List.map_map] at hb
    obtain ⟨e, _, hea⟩ := List.mem_map.mp hb
    have hpre : ("external-".data.isPrefixOf a.data) = true := by
      rw [← hea]
      show ("external-".data.isPrefixOf (("external-" ++ e.label) : String).data) = true
      rw [String.data_append]
      exact charsIsPrefixOf_append _ _
    rw [hNoExt a haAll] at hpre
    cases hpre

theorem c5_node_ids_amended_witness :
    ((topologyToNodes exTopoA ["A"]).map (·.id)).Nodup :=
  c5_node_ids_amended exTopoA ["A"] (by decide) (by decide)

theorem c6_expanded_device_positions_witness :
    ({ id := "d2", type := "device",
       position := { x := 0 - ((2 : Int) - 1) * 160 / 2 + (1 : Int) * 160, y := 0 },
       data := .device (mkDev "d2" "A") "A" "#39d5ff" } : Node)
      ∈ topologyToNodes exTopoA ["A"] := by
  have h := c6_expanded_device_positions exTopoA ["A"] (mkCl "A" 0 0 ["d1", "d2"])
    (by decide) (by decide) 1 (by decide)
  exact h

end Mockwatchtower
